import Mathlib

/-!
Verification development for the NetApp volume-migration scheduler
(`main.py`): a shallow embedding of the poll-classification state machine
(`get_move_status`, `wait_for_move_completion`), the per-volume worker
(`process_volume_move`), the concurrency-bounded scheduler loop
(`process_volume_list`), the trivial destination health check
(`_check_destination_aggr_status`), and the CLI-side volume-list assembly
(`read_volume_list` and the dedup in `main`).

External control-plane calls (the REST API, the SSH dispatch, thread
completion timing) are modelled as oracles passed in as arguments: the
embedding is parameterised over their responses, and the handling of those
responses by the Python code is translated faithfully.
-/

/-- Embedding of Python `str.lower()` as used in `wait_for_move_completion`:
lower-cases every character (ASCII letters, via `Char.toLower`). -/
def pyLower (s : String) : String :=
  String.mk (s.data.map Char.toLower)

/-- Result of one control-plane status query (`Job(job_id).get()` in
`get_move_status`): either a reported state string together with an optional
`progress.percent_complete` field, or a raised `NetAppRestError` / generic
exception (`err`). -/
inductive PollResult where
  | ok (state : String) (percent : Option Int)
  | err
deriving DecidableEq, Repr

/-- Embedding of `VolumeMove.get_move_status` (main.py lines 260-287): on a
successful query it returns the job state and the percent complete
(0 when the progress attribute is absent); on any caught exception it
returns the pair ("error", 0). -/
def get_move_status : PollResult → String × Int
  | .ok st p => (st, p.getD 0)
  | .err => ("error", 0)

/-- Three-way classification a single poll iteration of
`wait_for_move_completion` performs on the reported state string. The three
constructors correspond to the three observably distinct paths of the loop
body: `return True` (success log), `return False` (failure log), and
falling through to the next poll. -/
inductive MoveClass where
  | succeeded | failed | polling
deriving DecidableEq, Repr

/-- Embedding of the classification in `wait_for_move_completion`
(main.py lines 309-317): `state.lower() in ["success", "complete",
"completed"]` terminates the wait successfully; otherwise `state.lower() in
["failure", "error", "failed"]` terminates it as failed; otherwise the loop
keeps polling. -/
def classify_state (state : String) : MoveClass :=
  if pyLower state ∈ ["success", "complete", "completed"] then .succeeded
  else if pyLower state ∈ ["failure", "error", "failed"] then .failed
  else .polling

/-- Outcome of `wait_for_move_completion`, distinguishing its three return
sites: `return True` after a success-class poll, `return False` after a
failure-class poll (with the "failed" log line), and `return False` after
the while-condition expires (with the distinct "timed out" log line). -/
inductive WaitOutcome where
  | succeeded | failed | timedOut
deriving DecidableEq, Repr

/-- Boolean actually returned by `wait_for_move_completion` for each of its
three exit paths: `True` only for the success class. -/
def wait_to_bool : WaitOutcome → Bool
  | .succeeded => true
  | .failed => false
  | .timedOut => false

/-- Embedding of the polling loop of `VolumeMove.wait_for_move_completion`
(main.py lines 289-323). `elapsed i` models `time.time() - start_time` as
observed at the while-condition before poll number `i` (the loop sleeps 30
seconds per iteration, so in any real execution `elapsed i ≥ 30 * i`);
`polls i` is the control-plane response to poll number `i`. The loop polls
while `elapsed i < timeout`, returning at the first terminal classification,
and returns the timed-out outcome when the condition expires. `fuel` bounds
the recursion; `none` means the bound was too small to reach an exit,
which cannot happen for `fuel > timeout / 30 + 1` (see
`waitAux_timeout_of_polling`). -/
def waitAux (timeout : Nat) (elapsed : Nat → Nat) (polls : Nat → PollResult) :
    Nat → Nat → Option WaitOutcome
  | 0, _ => none
  | fuel + 1, i =>
    if elapsed i < timeout then
      match classify_state (get_move_status (polls i)).1 with
      | .succeeded => some .succeeded
      | .failed => some .failed
      | .polling => waitAux timeout elapsed polls fuel (i + 1)
    else
      some .timedOut

/-- Embedding of `VolumeMove.wait_for_move_completion` run from its first
poll. -/
def wait_for_move_completion (timeout : Nat) (elapsed : Nat → Nat)
    (polls : Nat → PollResult) (fuel : Nat) : Option WaitOutcome :=
  waitAux timeout elapsed polls fuel 0

/-- Embedding of `VolumeMove.process_volume_move` (main.py lines 325-348):
`startResult` models the `(success, result)` pair returned by
`initiate_volume_move_cli`; on dispatch failure the worker records `False`
immediately, otherwise it returns the boolean of the wait outcome. The
returned boolean is exactly the value stored in `move_results` for the
volume. -/
def process_volume_move (startResult : Bool × String) (waitOutcome : WaitOutcome) : Bool :=
  if startResult.1 then wait_to_bool waitOutcome else false

/-- State of the scheduler loop of `VolumeMove.process_volume_list`
(main.py lines 350-479): `inProgress` is the insertion-ordered key list of
the `in_progress` dict of futures, `remaining` is `remaining_volumes`,
`dispatched` is the list of volumes submitted to the executor so far in
submission order, `completedVolumes`, `successCount` and `failedVolumes`
mirror the variables of the same names. -/
structure SchedState where
  inProgress : List String
  remaining : List String
  dispatched : List String
  completedVolumes : List String
  successCount : Nat
  failedVolumes : List String
deriving DecidableEq, Repr

/-- Scheduler state right after the initial submission loop of
`process_volume_list` (main.py lines 372-386): the first `max_concurrent`
volumes of the input list are submitted in list order; the rest are
`remaining_volumes`. -/
def initState (volumeList : List String) (maxConcurrent : Nat) : SchedState :=
  { inProgress := volumeList.take maxConcurrent
    remaining := volumeList.drop maxConcurrent
    dispatched := volumeList.take maxConcurrent
    completedVolumes := []
    successCount := 0
    failedVolumes := []
    }

/-- One iteration of the `while in_progress:` loop of `process_volume_list`
(main.py lines 392-449). `outcome v` is the boolean the worker future for
volume `v` returns (`process_volume_move`); `doneNow v` models whether
`future.done()` is observed true for `v` on this iteration. The iteration
collects results of done futures in dict order, removes them from
`in_progress`, appends them to `completed_volumes`, updates the success
count and failed list, and then submits one pending volume (popped from the
front of `remaining_volumes`) per completed future, appending it to
the `in_progress` dict. -/
def schedStep (outcome : String → Bool) (doneNow : String → Bool)
    (s : SchedState) : SchedState :=
  let doneList := s.inProgress.filter doneNow
  let stillIn := s.inProgress.filter fun v => !(doneNow v)
  let c := doneList.length
  { inProgress := stillIn ++ s.remaining.take c
    remaining := s.remaining.drop c
    dispatched := s.dispatched ++ s.remaining.take c
    completedVolumes := s.completedVolumes ++ doneList
    successCount := s.successCount + doneList.countP outcome
    failedVolumes := s.failedVolumes ++ doneList.filter fun v => !(outcome v)
    }

/-- Embedding of the `while in_progress:` loop of `process_volume_list`:
the loop runs one `schedStep` per iteration while the `in_progress` dict is
non-empty; `trace` supplies the `future.done()` observations of each
iteration (one entry per executed iteration, reflecting real thread timing,
which the embedding treats as an oracle). -/
def runTrace (outcome : String → Bool) :
    List (String → Bool) → SchedState → SchedState
  | [], s => s
  | d :: ds, s =>
    match s.inProgress with
    | [] => s
    | _ :: _ => runTrace outcome ds (schedStep outcome d s)

/-- Contents of the final "VOLUME MIGRATION SUMMARY" block logged by
`process_volume_list` (main.py lines 454-479). -/
structure FinalReport where
  totalVolumes : Nat
  successCount : Nat
  failedVolumes : List String
deriving DecidableEq, Repr

/-- Embedding of `VolumeMove.process_volume_list` (main.py lines 350-479).
`healthOk` models the boolean returned by the
`_check_destination_aggr_status` call; `ignoreHealthCheck` is the
`ignore_health_check` flag. When the check is consulted and reports
unhealthy, the function returns `False` before submitting anything and
before the summary block, which the embedding renders as `(false, none)`.
Otherwise it seeds the executor, runs the scheduler loop, logs the summary,
and returns `success_count == total_volumes`. -/
def process_volume_list (healthOk : Bool) (ignoreHealthCheck : Bool)
    (volumeList : List String) (maxConcurrent : Nat)
    (outcome : String → Bool) (trace : List (String → Bool)) :
    Bool × Option FinalReport :=
  if !ignoreHealthCheck && !healthOk then (false, none)
  else
    let s := runTrace outcome trace (initState volumeList maxConcurrent)
    (s.successCount == volumeList.length,
     some ⟨volumeList.length, s.successCount, s.failedVolumes⟩)

/-- Embedding of `VolumeMove._check_destination_aggr_status` (main.py lines
136-152): the method body only logs and returns `True`; no status query is
performed, so the `except` branches returning `False` are unreachable. -/
def check_destination_aggr_status (_destAggr : String) : Bool :=
  true

/-- Embedding of Python `str.strip()`: removes leading and trailing
whitespace characters. -/
def pyStrip (s : String) : String :=
  String.mk (((s.data.dropWhile Char.isWhitespace).reverse.dropWhile
    Char.isWhitespace).reverse)

/-- Embedding of `read_volume_list` (main.py lines 481-488): the file is a
list of lines; the function returns the stripped form of every line whose
stripped form is non-empty, in file order. -/
def read_volume_list (lines : List String) : List String :=
  (lines.map pyStrip).filter fun l => l ≠ ""

/-- Embedding of the volume-list assembly in `main` (main.py lines 518-523):
volumes read from the `--volume-list` file followed by the repeated
`--volume` flags, before deduplication. -/
def assemble_volumes (fileLines : List String) (volFlags : List String) :
    List String :=
  read_volume_list fileLines ++ volFlags

/-- Relational model of Python `list(set(xs))` as executed at main.py line
531. A Python set guarantees exactly that the resulting list enumerates
each distinct element of `xs` once; the enumeration order is whatever hash
order the interpreter uses (randomized per process for strings) and is not
determined by `xs`. -/
def IsPySetList (xs ys : List String) : Prop :=
  ys.Nodup ∧ ∀ a, a ∈ ys ↔ a ∈ xs

/-- Splitting a list by a boolean predicate preserves total length. -/
theorem length_filter_split {α : Type} (p : α → Bool) (l : List α) :
    (l.filter p).length + (l.filter fun a => !(p a)).length = l.length := by
  have h := (List.filter_append_perm p l).length_eq
  simpa using h

/-- Any property preserved by every loop iteration executed from a
non-empty `in_progress` dict holds at the end of the scheduler loop if it
holds at the start. -/
theorem runTrace_preserves (outcome : String → Bool) (P : SchedState → Prop)
    (hstep : ∀ d s, s.inProgress ≠ [] → P s → P (schedStep outcome d s)) :
    ∀ (trace : List (String → Bool)) (s : SchedState),
      P s → P (runTrace outcome trace s) := by
  intro trace
  induction trace with
  | nil => intro s h; exact h
  | cons d ds ih =>
    intro s h
    simp only [runTrace]
    split
    · exact h
    · rename_i a l heq
      exact ih _ (hstep d s (by simp [heq]) h)

/-- One scheduler iteration moves volumes only from the front of
`remaining_volumes` to the submitted list: their concatenation is
unchanged. -/
theorem schedStep_dispatched_append (outcome doneNow : String → Bool)
    (s : SchedState) :
    (schedStep outcome doneNow s).dispatched ++
      (schedStep outcome doneNow s).remaining = s.dispatched ++ s.remaining := by
  simp [schedStep, List.append_assoc, List.take_append_drop]

/-- One scheduler iteration never grows the `in_progress` dict: it removes
the done futures and submits at most that many new volumes. -/
theorem schedStep_length_le (outcome doneNow : String → Bool) (s : SchedState) :
    (schedStep outcome doneNow s).inProgress.length ≤ s.inProgress.length := by
  have h := length_filter_split doneNow s.inProgress
  have h2 : (s.remaining.take (s.inProgress.filter doneNow).length).length ≤
      (s.inProgress.filter doneNow).length := by
    simp [List.length_take]
  simp only [schedStep, List.length_append]
  omega

/-- One scheduler iteration preserves the fact that the completed volumes
together with the in-progress ones are a permutation of everything
submitted so far. -/
theorem schedStep_perm (outcome doneNow : String → Bool) (s : SchedState)
    (h : (s.completedVolumes ++ s.inProgress).Perm s.dispatched) :
    ((schedStep outcome doneNow s).completedVolumes ++
      (schedStep outcome doneNow s).inProgress).Perm
      (schedStep outcome doneNow s).dispatched := by
  simp only [schedStep]
  have hfil : ((s.inProgress.filter doneNow) ++
      (s.inProgress.filter fun v => !(doneNow v))).Perm s.inProgress :=
    List.filter_append_perm doneNow s.inProgress
  have h1 : s.completedVolumes ++ s.inProgress.filter doneNow ++
      ((s.inProgress.filter fun v => !(doneNow v)) ++
        s.remaining.take (s.inProgress.filter doneNow).length) =
      (s.completedVolumes ++ ((s.inProgress.filter doneNow) ++
        (s.inProgress.filter fun v => !(doneNow v)))) ++
        s.remaining.take (s.inProgress.filter doneNow).length := by
    simp [List.append_assoc]
  rw [h1]
  exact (((hfil.append_left s.completedVolumes).trans h).append_right _)

/-- One scheduler iteration preserves the accounting identity
relating the success counter, the failed list and the completed list. -/
theorem schedStep_count (outcome doneNow : String → Bool) (s : SchedState)
    (h : s.successCount + s.failedVolumes.length = s.completedVolumes.length) :
    (schedStep outcome doneNow s).successCount +
      (schedStep outcome doneNow s).failedVolumes.length =
      (schedStep outcome doneNow s).completedVolumes.length := by
  simp only [schedStep, List.length_append]
  have h2 := length_filter_split outcome (s.inProgress.filter doneNow)
  have h3 := List.countP_eq_length_filter outcome (s.inProgress.filter doneNow)
  omega

/-- If an iteration starts from a non-empty `in_progress` dict and empties
it, then `remaining_volumes` was already exhausted: a completed future
always triggers a new submission while pending volumes remain. -/
theorem schedStep_empty_remaining (outcome doneNow : String → Bool)
    (s : SchedState) (hne : s.inProgress ≠ [])
    (hip : (schedStep outcome doneNow s).inProgress = []) :
    (schedStep outcome doneNow s).remaining = [] := by
  simp only [schedStep] at hip ⊢
  rcases List.append_eq_nil.mp hip with ⟨hstill, htake⟩
  have hsplit := length_filter_split doneNow s.inProgress
  have hlen : (s.inProgress.filter doneNow).length = s.inProgress.length := by
    rw [hstill] at hsplit
    simpa using hsplit
  have hpos : 0 < s.inProgress.length := List.length_pos.mpr hne
  rcases List.take_eq_nil_iff.mp htake with hc | hrem
  · omega
  · simp [hrem]

/-- While no future has completed, no submission beyond the initial batch
has happened. -/
theorem schedStep_fresh (outcome doneNow : String → Bool) (s : SchedState)
    (base : List String)
    (h : s.completedVolumes = [] → s.dispatched = base)
    (hcomp : (schedStep outcome doneNow s).completedVolumes = []) :
    (schedStep outcome doneNow s).dispatched = base := by
  simp only [schedStep] at hcomp ⊢
  rcases List.append_eq_nil.mp hcomp with ⟨hc, hdone⟩
  simp [hdone, h hc]

/-- One scheduler iteration preserves the fact that every completed volume
whose worker returned `False` is on the failed list. -/
theorem schedStep_failed_mem (outcome doneNow : String → Bool) (s : SchedState)
    (h : ∀ v ∈ s.completedVolumes, outcome v = false → v ∈ s.failedVolumes) :
    ∀ v ∈ (schedStep outcome doneNow s).completedVolumes, outcome v = false →
      v ∈ (schedStep outcome doneNow s).failedVolumes := by
  simp only [schedStep]
  intro v hv hout
  rcases List.mem_append.mp hv with hv1 | hv2
  · exact List.mem_append.mpr (Or.inl (h v hv1 hout))
  · exact List.mem_append.mpr (Or.inr (List.mem_filter.mpr ⟨hv2, by simp [hout]⟩))

/-- At every observable instant of the scheduler loop, the volumes
submitted so far followed by the still-pending volumes are exactly the
input list. -/
theorem runTrace_inv_dispatched (vl : List String) (K : Nat)
    (outcome : String → Bool) (trace : List (String → Bool)) :
    (runTrace outcome trace (initState vl K)).dispatched ++
      (runTrace outcome trace (initState vl K)).remaining = vl :=
  runTrace_preserves outcome (fun s => s.dispatched ++ s.remaining = vl)
    (fun d s _ h => by
      show (schedStep outcome d s).dispatched ++
        (schedStep outcome d s).remaining = vl
      rw [schedStep_dispatched_append]
      exact h) trace _
    (by simp [initState])

/-- At every observable instant of the scheduler loop, at most
`max_concurrent` futures are in the `in_progress` dict. -/
theorem runTrace_inv_length (vl : List String) (K : Nat)
    (outcome : String → Bool) (trace : List (String → Bool)) :
    (runTrace outcome trace (initState vl K)).inProgress.length ≤ K :=
  runTrace_preserves outcome (fun s => s.inProgress.length ≤ K)
    (fun d s _ h => le_trans (schedStep_length_le outcome d s) h) trace _
    (by simp [initState, List.length_take])

/-- At every observable instant of the scheduler loop, the completed
volumes together with the in-progress volumes are a permutation of the
submitted volumes. -/
theorem runTrace_inv_perm (vl : List String) (K : Nat)
    (outcome : String → Bool) (trace : List (String → Bool)) :
    ((runTrace outcome trace (initState vl K)).completedVolumes ++
      (runTrace outcome trace (initState vl K)).inProgress).Perm
      (runTrace outcome trace (initState vl K)).dispatched :=
  runTrace_preserves outcome
    (fun s => (s.completedVolumes ++ s.inProgress).Perm s.dispatched)
    (fun d s _ h => schedStep_perm outcome d s h) trace _
    (by simp [initState])

/-- At every observable instant of the scheduler loop, the success counter
plus the failed-list length equals the number of completed volumes. -/
theorem runTrace_inv_count (vl : List String) (K : Nat)
    (outcome : String → Bool) (trace : List (String → Bool)) :
    (runTrace outcome trace (initState vl K)).successCount +
      (runTrace outcome trace (initState vl K)).failedVolumes.length =
      (runTrace outcome trace (initState vl K)).completedVolumes.length :=
  runTrace_preserves outcome
    (fun s => s.successCount + s.failedVolumes.length = s.completedVolumes.length)
    (fun d s _ h => schedStep_count outcome d s h) trace _
    (by simp [initState])

/-- With at least one worker, the scheduler loop can only drain the
`in_progress` dict after `remaining_volumes` is exhausted. -/
theorem runTrace_inv_empty (vl : List String) (K : Nat)
    (outcome : String → Bool) (trace : List (String → Bool)) (hK : 1 ≤ K)
    (hfin : (runTrace outcome trace (initState vl K)).inProgress = []) :
    (runTrace outcome trace (initState vl K)).remaining = [] := by
  refine runTrace_preserves outcome
    (fun s => s.inProgress = [] → s.remaining = [])
    (fun d s hne _ hip => schedStep_empty_remaining outcome d s hne hip) trace _
    ?_ hfin
  intro hip
  simp only [initState] at hip ⊢
  rcases List.take_eq_nil_iff.mp hip with hc | hnil
  · omega
  · simp [hnil]

/-- While no future has been observed complete, the submitted volumes are
exactly the initial batch (the first `max_concurrent` input volumes). -/
theorem runTrace_inv_fresh (vl : List String) (K : Nat)
    (outcome : String → Bool) (trace : List (String → Bool))
    (hcomp : (runTrace outcome trace (initState vl K)).completedVolumes = []) :
    (runTrace outcome trace (initState vl K)).dispatched = vl.take K := by
  refine runTrace_preserves outcome
    (fun s => s.completedVolumes = [] → s.dispatched = vl.take K)
    (fun d s _ h hcomp2 => schedStep_fresh outcome d s (vl.take K) h hcomp2) trace _
    ?_ hcomp
  intro _
  rfl

/-- At every observable instant of the scheduler loop, every completed
volume whose worker returned `False` is on the failed list. -/
theorem runTrace_inv_failed_mem (vl : List String) (K : Nat)
    (outcome : String → Bool) (trace : List (String → Bool)) :
    ∀ v ∈ (runTrace outcome trace (initState vl K)).completedVolumes,
      outcome v = false →
      v ∈ (runTrace outcome trace (initState vl K)).failedVolumes :=
  runTrace_preserves outcome
    (fun s => ∀ v ∈ s.completedVolumes, outcome v = false → v ∈ s.failedVolumes)
    (fun d s _ h => schedStep_failed_mem outcome d s h) trace _
    (by simp [initState])

/-- Facts about the scheduler state when the loop has drained (with at
least one worker): everything was submitted, the completed archive is a
permutation of the input list, and the success and failure counts sum to
the input length. -/
theorem runTrace_final (vl : List String) (K : Nat) (outcome : String → Bool)
    (trace : List (String → Bool)) (hK : 1 ≤ K)
    (hfin : (runTrace outcome trace (initState vl K)).inProgress = []) :
    (runTrace outcome trace (initState vl K)).dispatched = vl ∧
    ((runTrace outcome trace (initState vl K)).completedVolumes).Perm vl ∧
    (runTrace outcome trace (initState vl K)).successCount +
      (runTrace outcome trace (initState vl K)).failedVolumes.length =
      vl.length := by
  have hrem := runTrace_inv_empty vl K outcome trace hK hfin
  have hdr := runTrace_inv_dispatched vl K outcome trace
  rw [hrem, List.append_nil] at hdr
  have hperm := runTrace_inv_perm vl K outcome trace
  rw [hfin, List.append_nil, hdr] at hperm
  have hcount := runTrace_inv_count vl K outcome trace
  refine ⟨hdr, hperm, ?_⟩
  rw [hcount, hperm.length_eq]

/-- Index `K` of a duplicate-free list is not among its first `K`
elements. -/
theorem getElem_not_mem_take (vl : List String) (K : Nat)
    (hnd : vl.Nodup) (hK : K < vl.length) : vl[K] ∉ vl.take K := by
  have hsplit : vl.take K ++ vl.drop K = vl := List.take_append_drop K vl
  have hnd2 : (vl.take K ++ vl.drop K).Nodup := by rw [hsplit]; exact hnd
  have hdisj := List.disjoint_of_nodup_append hnd2
  intro hmem
  exact hdisj hmem (by rw [List.drop_eq_getElem_cons hK]; exact List.mem_cons_self _ _)

/-- When every poll made while under the timeout bound classifies as
non-terminal, and time advances by at least the 30-second sleep per
iteration, the wait loop reaches its timeout exit; fuel at least
`timeout / 30 + 2` counted from iteration `i` suffices. -/
theorem waitAux_timeout_of_polling (timeout : Nat) (elapsed : Nat → Nat)
    (polls : Nat → PollResult)
    (helapsed : ∀ j, 30 * j ≤ elapsed j)
    (hpolls : ∀ j, elapsed j < timeout →
      classify_state (get_move_status (polls j)).1 = .polling) :
    ∀ fuel i, timeout + 30 ≤ 30 * (i + fuel) → 1 ≤ fuel →
      waitAux timeout elapsed polls fuel i = some .timedOut := by
  intro fuel
  induction fuel with
  | zero => intro i hbound h1; omega
  | succ n ih =>
    intro i hbound h1
    by_cases hi : elapsed i < timeout
    · have hc := hpolls i hi
      have hlo := helapsed i
      simp only [waitAux, if_pos hi, hc]
      apply ih (i + 1)
      · omega
      · omega
    · simp only [waitAux, if_neg hi]

/-- Claim C1 counterexample. The claim says a transient poll error leaves
the job in Polling and never causes an immediate Failed outcome. In the
code, `get_move_status` turns a caught exception into the pair
("error", 0), and the very next classification in
`wait_for_move_completion` puts "error" in the failure class: a single
poll error at the first poll (elapsed time 0, far below the default
86400-second timeout) terminates the wait immediately with the failed
outcome, which `process_volume_move` records as `False`. -/
theorem c1_counterexample :
    get_move_status .err = ("error", 0) ∧
    wait_for_move_completion 86400 (fun i => 30 * i) (fun _ => .err) 5 =
      some .failed ∧
    wait_to_bool .failed = false := by
  decide

/-- Claim C1 (amended): a transient poll error is indeed reported as
state "error" with percent 0 for that poll, but "error" belongs to the
failure class of the classifier, so the first poll error observed while
still under the timeout immediately terminates the job as Failed; poll
errors do not accumulate toward the timeout. -/
theorem c1_poll_error_fails_fast :
    get_move_status .err = ("error", 0) ∧
    classify_state "error" = MoveClass.failed ∧
    ∀ (timeout : Nat) (elapsed : Nat → Nat) (polls : Nat → PollResult)
      (fuel : Nat), elapsed 0 < timeout → polls 0 = .err →
      wait_for_move_completion timeout elapsed polls (fuel + 1) =
        some .failed := by
  refine ⟨rfl, by decide, ?_⟩
  intro timeout elapsed polls fuel h0 hp
  have hc : classify_state (get_move_status (polls 0)).1 = .failed := by
    rw [hp]; decide
  simp only [wait_for_move_completion, waitAux, if_pos h0, hc]

/-- Witness for the amended claim C1 at a concrete input. -/
theorem c1_witness :
    wait_for_move_completion 86400 (fun i => 30 * i) (fun _ => PollResult.err)
      3 = some WaitOutcome.failed :=
  c1_poll_error_fails_fast.2.2 86400 (fun i => 30 * i) (fun _ => PollResult.err)
    2 (by decide) rfl

/-- Claim C2 counterexample. The claim says the string "completed " (with
trailing whitespace) classifies as Succeeded; the code lower-cases but
never strips the state string, so "completed " matches no list entry and
the job stays in Polling. -/
theorem c2_counterexample :
    classify_state "completed " = MoveClass.polling ∧
    MoveClass.polling ≠ MoveClass.succeeded := by
  decide

/-- Claim C2 (amended): on every poll the state string is classified by
its lower-cased form — success class ("success"/"complete"/"completed")
yields Succeeded, failure class ("failure"/"error"/"failed") yields
Failed, anything else leaves the job Polling, and two strings with the
same lower-cased form classify identically (case-insensitivity); in
particular "Complete", "SUCCESS" and "completed" classify as Succeeded,
but "completed " (trailing whitespace) does not — it stays Polling. -/
theorem c2_classify :
    (∀ s, pyLower s ∈ ["success", "complete", "completed"] →
      classify_state s = .succeeded) ∧
    (∀ s, pyLower s ∉ ["success", "complete", "completed"] →
      pyLower s ∈ ["failure", "error", "failed"] →
      classify_state s = .failed) ∧
    (∀ s, pyLower s ∉ ["success", "complete", "completed"] →
      pyLower s ∉ ["failure", "error", "failed"] →
      classify_state s = .polling) ∧
    (∀ s t, pyLower s = pyLower t → classify_state s = classify_state t) ∧
    classify_state "Complete" = .succeeded ∧
    classify_state "SUCCESS" = .succeeded ∧
    classify_state "completed" = .succeeded ∧
    classify_state "Failure" = .failed ∧
    classify_state "ERROR" = .failed ∧
    classify_state "failed" = .failed ∧
    classify_state "replicating" = .polling ∧
    classify_state "completed " = .polling := by
  refine ⟨?_, ?_, ?_, ?_, by decide, by decide, by decide, by decide,
    by decide, by decide, by decide, by decide⟩
  · intro s hs
    simp [classify_state, hs]
  · intro s hs1 hs2
    simp [classify_state, hs1, hs2]
  · intro s hs1 hs2
    simp [classify_state, hs1, hs2]
  · intro s t hst
    simp only [classify_state, hst]

/-- Witness for the amended claim C2 at concrete inputs. -/
theorem c2_witness :
    classify_state "Queued" = MoveClass.polling ∧
    classify_state "FAILED" = MoveClass.failed :=
  ⟨c2_classify.2.2.1 "Queued" (by decide) (by decide),
   c2_classify.2.1 "FAILED" (by decide) (by decide)⟩

/-- Claim C3 counterexample. The claim says a target whose `startMove`
fails never occupies one of the `maxConcurrency` slots and the next
pending target is dispatched in its place. In the code the dispatch
attempt happens inside the submitted worker (`process_volume_move` calls
`initiate_volume_move_cli` on the executor thread), so with input
["volA", "volB"] and one slot, volA — whose worker result is `False` by
the first conjunct — is the sole occupant of the slot right after the
initial submission, while volB is not yet dispatched at that observable
instant. -/
theorem c3_counterexample :
    process_volume_move (false, "dispatch error") WaitOutcome.succeeded = false ∧
    (initState ["volA", "volB"] 1).inProgress = ["volA"] ∧
    "volB" ∉ (initState ["volA", "volB"] 1).dispatched := by
  decide

/-- Claim C3 (amended): a target whose `startMove` fails does occupy a
concurrency slot — its worker is submitted like any other — but the worker
returns `False` immediately, the target is recorded as Failed (it appears
in the failed list), the slot is then freed and refilled from the pending
queue, and a run that drains still completes every target. -/
theorem c3_dispatch_failure (vl : List String) (K : Nat)
    (startRes : String → Bool × String) (waitRes : String → WaitOutcome)
    (trace : List (String → Bool)) (v : String)
    (hK : 1 ≤ K) (hv : v ∈ vl)
    (hstart : (startRes v).1 = false)
    (hfin : (runTrace (fun u => process_volume_move (startRes u) (waitRes u))
      trace (initState vl K)).inProgress = []) :
    v ∈ (runTrace (fun u => process_volume_move (startRes u) (waitRes u))
      trace (initState vl K)).failedVolumes ∧
    ∀ u ∈ vl, u ∈ (runTrace (fun u => process_volume_move (startRes u) (waitRes u))
      trace (initState vl K)).completedVolumes := by
  have hfinal := runTrace_final vl K
    (fun u => process_volume_move (startRes u) (waitRes u)) trace hK hfin
  have hmem : ∀ u ∈ vl, u ∈ (runTrace
      (fun u => process_volume_move (startRes u) (waitRes u))
      trace (initState vl K)).completedVolumes :=
    fun u hu => hfinal.2.1.mem_iff.mpr hu
  refine ⟨?_, hmem⟩
  apply runTrace_inv_failed_mem vl K _ trace v (hmem v hv)
  simp [process_volume_move, hstart]

/-- Witness for the amended claim C3 at a concrete input: one slot, the
dispatch of volA fails, the run drains in two iterations, volA is on the failed
list and both volumes complete. -/
theorem c3_witness :
    "volA" ∈ (runTrace
      (fun u => process_volume_move
        (if u = "volA" then (false, "err") else (true, "7"))
        WaitOutcome.succeeded)
      [fun _ => true, fun _ => true] (initState ["volA", "volB"] 1)).failedVolumes ∧
    "volB" ∈ (runTrace
      (fun u => process_volume_move
        (if u = "volA" then (false, "err") else (true, "7"))
        WaitOutcome.succeeded)
      [fun _ => true, fun _ => true] (initState ["volA", "volB"] 1)).completedVolumes := by
  have h := c3_dispatch_failure ["volA", "volB"] 1
    (fun u => if u = "volA" then (false, "err") else (true, "7"))
    (fun _ => WaitOutcome.succeeded)
    [fun _ => true, fun _ => true] "volA"
    (by decide) (by decide) (by decide) (by decide)
  exact ⟨h.1, h.2 "volB" (by decide)⟩

/-- Claim C4: at every observable instant of every run (every state the
loop can reach, i.e. `runTrace` over an arbitrary trace and an arbitrary
trace prefix), at most `maxConcurrency = K` futures are in progress; and
while no job has reached a terminal state, only the first `K` input
volumes have been submitted — in particular, for `K < N` and distinct
targets, target number `K+1` is not yet dispatched. -/
theorem c4_concurrency_bound (vl : List String) (K : Nat)
    (outcome : String → Bool) (trace : List (String → Bool)) :
    (runTrace outcome trace (initState vl K)).inProgress.length ≤ K ∧
    ((runTrace outcome trace (initState vl K)).completedVolumes = [] →
      (runTrace outcome trace (initState vl K)).dispatched = vl.take K) ∧
    (vl.Nodup → ∀ hK : K < vl.length,
      (runTrace outcome trace (initState vl K)).completedVolumes = [] →
      vl[K] ∉ (runTrace outcome trace (initState vl K)).dispatched) := by
  refine ⟨runTrace_inv_length vl K outcome trace,
    fun hc => runTrace_inv_fresh vl K outcome trace hc, ?_⟩
  intro hnd hK hc
  rw [runTrace_inv_fresh vl K outcome trace hc]
  exact getElem_not_mem_take vl K hnd hK

/-- Witness for claim C4 at a concrete input: three volumes, two slots, no
completion observed yet — the bound holds and the third volume is not yet
dispatched. -/
theorem c4_witness :
    (runTrace (fun _ => true) [] (initState ["a", "b", "c"] 2)).inProgress.length ≤ 2 ∧
    "c" ∉ (runTrace (fun _ => true) [] (initState ["a", "b", "c"] 2)).dispatched := by
  have h := c4_concurrency_bound ["a", "b", "c"] 2 (fun _ => true) []
  exact ⟨h.1, h.2.2 (by decide) (by decide) (by decide)⟩

/-- Claim C5 counterexample. The claim says an unhealthy pre-flight check
(bypass unset) aborts the run with a failure summary of `failed = N,
succeeded = 0`. In the code the abort branch is `return False` executed
before the executor block and before the summary block, so no summary is
produced at all (embedded as the `none` report) — in particular no summary
with two failed targets exists for this two-target run. -/
theorem c5_counterexample :
    (process_volume_list false false ["v1", "v2"] 4 (fun _ => true) []).2 =
      none ∧
    (process_volume_list false false ["v1", "v2"] 4 (fun _ => true) []).1 =
      false := by
  decide

/-- Claim C5 (amended): when the bypass flag is unset and the health check
reports unhealthy, the run aborts immediately — overall result `False`,
zero targets dispatched, and no final summary block at all (so no
`failed = N` accounting); when the bypass flag is set, the run proceeds to
dispatch without consulting the health-check result. -/
theorem c5_health_check_abort :
    (∀ (vl : List String) (K : Nat) (outcome : String → Bool)
      (trace : List (String → Bool)),
      process_volume_list false false vl K outcome trace = (false, none)) ∧
    (∀ (healthOk : Bool) (vl : List String) (K : Nat)
      (outcome : String → Bool) (trace : List (String → Bool)),
      process_volume_list healthOk true vl K outcome trace =
        process_volume_list true true vl K outcome trace) := by
  constructor
  · intro vl K outcome trace
    rfl
  · intro healthOk vl K outcome trace
    rfl

/-- Claim C6: a job whose polls all stay non-terminal while the elapsed
time is under the bound, with time advancing by at least the 30-second
sleep per poll, exits the wait loop through the timeout path (the
`TimedOut` outcome); that outcome maps to the boolean `False` — a failure
outcome — yet is distinct from the explicit remote-failure outcome (the
two exit paths log different messages); and in the scheduler each
completed job is archived (its slot freed) exactly once. -/
theorem c6_timeout :
    (∀ (timeout : Nat) (elapsed : Nat → Nat) (polls : Nat → PollResult)
      (fuel : Nat),
      (∀ j, 30 * j ≤ elapsed j) →
      (∀ j, elapsed j < timeout →
        classify_state (get_move_status (polls j)).1 = MoveClass.polling) →
      timeout / 30 + 2 ≤ fuel →
      wait_for_move_completion timeout elapsed polls fuel =
        some WaitOutcome.timedOut) ∧
    wait_to_bool WaitOutcome.timedOut = false ∧
    WaitOutcome.timedOut ≠ WaitOutcome.failed ∧
    (∀ (vl : List String) (K : Nat) (outcome : String → Bool)
      (trace : List (String → Bool)) (v : String), 1 ≤ K → vl.Nodup →
      (runTrace outcome trace (initState vl K)).inProgress = [] → v ∈ vl →
      (runTrace outcome trace (initState vl K)).completedVolumes.count v = 1) := by
  refine ⟨?_, rfl, by decide, ?_⟩
  · intro timeout elapsed polls fuel helapsed hpolls hfuel
    apply waitAux_timeout_of_polling timeout elapsed polls helapsed hpolls fuel 0
    · have hmod : timeout % 30 < 30 := Nat.mod_lt _ (by omega)
      have hdm := Nat.div_add_mod timeout 30
      omega
    · omega
  · intro vl K outcome trace v hK hnd hfin hv
    have hfinal := runTrace_final vl K outcome trace hK hfin
    have hcnodup : (runTrace outcome trace (initState vl K)).completedVolumes.Nodup :=
      hfinal.2.1.nodup_iff.mpr hnd
    exact List.count_eq_one_of_mem hcnodup (hfinal.2.1.mem_iff.mpr hv)

/-- Witness for claim C6 at a concrete input: 60-second timeout, polls
reporting "replicating", time advancing exactly 30 seconds per poll. -/
theorem c6_witness :
    wait_for_move_completion 60 (fun j => 30 * j)
      (fun _ => PollResult.ok "replicating" (some 10)) 4 =
      some WaitOutcome.timedOut ∧
    (runTrace (fun _ => true) [fun _ => true]
      (initState ["a"] 1)).completedVolumes.count "a" = 1 := by
  have hcl : classify_state
      (get_move_status (PollResult.ok "replicating" (some 10))).1 =
      MoveClass.polling := by decide
  constructor
  · exact c6_timeout.1 60 (fun j => 30 * j)
      (fun _ => PollResult.ok "replicating" (some 10)) 4
      (fun j => le_refl _) (fun j hj => hcl) (by decide)
  · exact c6_timeout.2.2.2 ["a"] 1 (fun _ => true) [fun _ => true] "a"
      (by decide) (by decide) (by decide) (by decide)

/-- Claim C7: for a run over distinct targets with at least one worker
that drains its loop (and is not aborted by the pre-flight check), every
target is archived with exactly one terminal outcome, every target is
submitted exactly once (the submission list is exactly the input list,
which is duplicate-free), the success count plus the failed count equals
the number of targets, and the boolean returned by the run is `True` exactly
when the success count equals the number of targets. -/
theorem c7_summary (vl : List String) (K : Nat) (outcome : String → Bool)
    (trace : List (String → Bool)) (healthOk ignoreFlag : Bool)
    (hK : 1 ≤ K) (hnd : vl.Nodup)
    (hrun : ignoreFlag = true ∨ healthOk = true)
    (hfin : (runTrace outcome trace (initState vl K)).inProgress = []) :
    (∀ v ∈ vl,
      (runTrace outcome trace (initState vl K)).completedVolumes.count v = 1) ∧
    (runTrace outcome trace (initState vl K)).dispatched = vl ∧
    (runTrace outcome trace (initState vl K)).dispatched.Nodup ∧
    (runTrace outcome trace (initState vl K)).successCount +
      (runTrace outcome trace (initState vl K)).failedVolumes.length =
      vl.length ∧
    ((process_volume_list healthOk ignoreFlag vl K outcome trace).1 = true ↔
      (runTrace outcome trace (initState vl K)).successCount = vl.length) := by
  have hfinal := runTrace_final vl K outcome trace hK hfin
  have hcnodup : (runTrace outcome trace (initState vl K)).completedVolumes.Nodup :=
    hfinal.2.1.nodup_iff.mpr hnd
  refine ⟨fun v hv => List.count_eq_one_of_mem hcnodup (hfinal.2.1.mem_iff.mpr hv),
    hfinal.1, by rw [hfinal.1]; exact hnd, hfinal.2.2, ?_⟩
  have hcond : (!ignoreFlag && !healthOk) = false := by
    rcases hrun with h | h <;> simp [h]
  simp [process_volume_list, hcond]

/-- Witness for claim C7 at a concrete input: three distinct volumes, two
slots, the "b" worker fails, the loop drains in two iterations. -/
theorem c7_witness :
    (runTrace (fun v => v ≠ "b") [fun _ => true, fun _ => true]
      (initState ["a", "b", "c"] 2)).completedVolumes.count "b" = 1 ∧
    (runTrace (fun v => v ≠ "b") [fun _ => true, fun _ => true]
      (initState ["a", "b", "c"] 2)).successCount +
      (runTrace (fun v => v ≠ "b") [fun _ => true, fun _ => true]
        (initState ["a", "b", "c"] 2)).failedVolumes.length = 3 := by
  have h := c7_summary ["a", "b", "c"] 2 (fun v => v ≠ "b")
    [fun _ => true, fun _ => true] true false
    (by decide) (by decide) (Or.inr rfl) (by decide)
  exact ⟨h.1 "b" (by decide), h.2.2.2.1⟩

/-- Claim C8: dispatch is FIFO relative to the input list — the initial
batch is the first `max_concurrent` input volumes in list order, and at
every observable instant the submitted volumes are exactly a prefix of
the input list (each freed slot was refilled with the earliest
not-yet-submitted input volume), the pending queue being the matching
suffix. -/
theorem c8_fifo (vl : List String) (K : Nat) (outcome : String → Bool)
    (trace : List (String → Bool)) :
    (initState vl K).dispatched = vl.take K ∧
    (runTrace outcome trace (initState vl K)).dispatched =
      vl.take (runTrace outcome trace (initState vl K)).dispatched.length ∧
    (runTrace outcome trace (initState vl K)).remaining =
      vl.drop (runTrace outcome trace (initState vl K)).dispatched.length := by
  have hdr := runTrace_inv_dispatched vl K outcome trace
  refine ⟨rfl, ?_, ?_⟩
  · have htl := List.take_left
      (runTrace outcome trace (initState vl K)).dispatched
      (runTrace outcome trace (initState vl K)).remaining
    rw [hdr] at htl
    exact htl.symm
  · have hdl := List.drop_left
      (runTrace outcome trace (initState vl K)).dispatched
      (runTrace outcome trace (initState vl K)).remaining
    rw [hdr] at hdl
    exact hdl.symm

/-- Claim C9: the pre-flight destination health check performs no query
and returns `True` for every aggregate name, so when `process_volume_list`
consults it the unhealthy-abort branch is unreachable: the run always
proceeds to dispatch and produce a summary, exactly as if the bypass flag
were set. -/
theorem c9_health_check_trivial :
    (∀ dest, check_destination_aggr_status dest = true) ∧
    (∀ (dest : String) (ignoreFlag : Bool) (vl : List String) (K : Nat)
      (outcome : String → Bool) (trace : List (String → Bool)),
      (process_volume_list (check_destination_aggr_status dest) ignoreFlag
        vl K outcome trace).2.isSome = true ∧
      process_volume_list (check_destination_aggr_status dest) ignoreFlag
        vl K outcome trace =
        process_volume_list true true vl K outcome trace) := by
  refine ⟨fun dest => rfl, ?_⟩
  intro dest ignoreFlag vl K outcome trace
  constructor
  · cases ignoreFlag <;> rfl
  · cases ignoreFlag <;> rfl

/-- Claim C10: after `main` assembles the file-sourced and flag-sourced
volume names, `list(set(...))` hands the scheduler a list containing each
distinct supplied name exactly once; and because a Python set fixes only
membership, not enumeration order, the order of that list is not
determined by the supplied order — two different orders are both valid
outputs of the same input. -/
theorem c10_dedup :
    (∀ (fileLines volFlags ys : List String),
      IsPySetList (assemble_volumes fileLines volFlags) ys →
      ∀ a ∈ assemble_volumes fileLines volFlags, ys.count a = 1) ∧
    (∃ xs ys zs : List String,
      IsPySetList xs ys ∧ IsPySetList xs zs ∧ ys ≠ zs) := by
  constructor
  · intro fileLines volFlags ys hset a ha
    exact List.count_eq_one_of_mem hset.1 ((hset.2 a).mpr ha)
  · refine ⟨["a", "b"], ["a", "b"], ["b", "a"], ⟨by decide, fun a => Iff.rfl⟩,
      ⟨by decide, fun a => ?_⟩, by decide⟩
    simp only [List.mem_cons, List.not_mem_nil, or_false]
    tauto

/-- Witness for claim C10 at a concrete input: the file supplies "a", the
flags supply "b" and a duplicate "a"; the deduplicated list ["a", "b"]
holds "a" exactly once. -/
theorem c10_witness : List.count "a" ["a", "b"] = 1 := by
  apply c10_dedup.1 ["a"] ["b", "a"] ["a", "b"]
  · refine ⟨by decide, fun a => ?_⟩
    have hassemble : assemble_volumes ["a"] ["b", "a"] = ["a", "b", "a"] := by
      decide
    rw [hassemble]
    simp only [List.mem_cons, List.not_mem_nil, or_false]
    tauto
  · decide

